import Mathlib

/-!
Shallow embedding of the accord repository's host runtime
(`packages/@accord/host/src/index.ts`), the manifest compatibility check
(`packages/@accord/manifest/src/index.ts`), and the type-generation entry
point (`packages/@accord/types/src/index.ts`).

JavaScript `Map`s are modelled as association lists, DOM elements as
records of attributes / properties / listeners, and promises as abstract
identifiers whose settlement is described by outcome-valued functions.
The host runtime is single-threaded: each `loadRemote` body runs
synchronously up to returning its (timeout-wrapped) promise, and the
script `onload` / `onerror` callbacks fire later as separate events.
-/

namespace Accord

/-! ### JavaScript `Map` operations, modelled on association lists -/

def mapGet {α : Type} (m : List (String × α)) (k : String) : Option α :=
  match m with
  | [] => none
  | (k', v) :: rest => if k' = k then some v else mapGet rest k

def mapDelete {α : Type} (m : List (String × α)) (k : String) :
    List (String × α) :=
  match m with
  | [] => []
  | (k', v) :: rest => if k' = k then mapDelete rest k else (k', v) :: mapDelete rest k

def mapSet {α : Type} (m : List (String × α)) (k : String) (v : α) :
    List (String × α) :=
  (k, v) :: mapDelete m k

theorem mapGet_mapDelete_self {α : Type} (m : List (String × α)) (k : String) :
    mapGet (mapDelete m k) k = none := by
  induction m with
  | nil => rfl
  | cons p rest ih =>
    by_cases h : p.1 = k
    · simpa [mapDelete, h] using ih
    · simp [mapDelete, h, mapGet, ih]

theorem mapGet_mapDelete_ne {α : Type} (m : List (String × α)) (k k' : String)
    (h : k' ≠ k) :
    mapGet (mapDelete m k) k' = mapGet m k' := by
  have hne : ¬k = k' := fun hk => h hk.symm
  induction m with
  | nil => rfl
  | cons p rest ih =>
    by_cases hp : p.1 = k
    · simp [mapDelete, hp, mapGet, hne, ih]
    · by_cases hk' : p.1 = k'
      · simp [mapDelete, hp, mapGet, hk', h]
      · simp [mapDelete, hp, mapGet, hk', ih]

theorem mapGet_mapSet_self {α : Type} (m : List (String × α)) (k : String) (v : α) :
    mapGet (mapSet m k v) k = some v := by
  simp [mapSet, mapGet]

theorem mapGet_mapSet_ne {α : Type} (m : List (String × α)) (k k' : String) (v : α)
    (h : k' ≠ k) :
    mapGet (mapSet m k v) k' = mapGet m k' := by
  have hne : ¬k = k' := fun hk => h hk.symm
  simp [mapSet, mapGet, hne, mapGet_mapDelete_ne m k k' h]

/-! ### JavaScript values

Props and event payloads are untyped JavaScript values.  Numbers are
modelled as integers (the examples in the repository only use integral
numbers), and function values as abstract identifiers (the runtime never
calls a prop value, it only stores it). -/

inductive JSValue : Type where
  | undef : JSValue
  | null : JSValue
  | str (s : String) : JSValue
  | num (n : Int) : JSValue
  | bool (b : Bool) : JSValue
  | obj (fields : List (String × JSValue)) : JSValue
  | arr (items : List JSValue) : JSValue
  | func (fid : Nat) : JSValue

/-! ### DOM model

An element carries its tag name, attribute map, direct-property map, text
content, registered event listeners and the `host` capability slot.  Each
listener mounted by the runtime validates payloads against one event
schema; `hid` identifies the listener so that the `unmount` closure's
`removeEventListener` cleanups can be modelled. -/

structure EListener : Type where
  eventName : String
  dev : Bool
  schema : JSValue → Bool
  hid : Nat

structure Element : Type where
  eid : Nat
  tagName : String
  attrs : List (String × String)
  props : List (String × JSValue)
  textContent : String
  listeners : List EListener
  host : Bool

def createElement (tagName : String) (eid : Nat) : Element :=
  { eid := eid, tagName := tagName, attrs := [], props := [],
    textContent := "", listeners := [], host := false }

def Element.setAttribute (el : Element) (key value : String) : Element :=
  { el with attrs := mapSet el.attrs key value }

def Element.removeAttribute (el : Element) (key : String) : Element :=
  { el with attrs := mapDelete el.attrs key }

def Element.getAttribute (el : Element) (key : String) : Option String :=
  mapGet el.attrs key

def Element.setProp (el : Element) (key : String) (value : JSValue) : Element :=
  { el with props := mapSet el.props key value }

structure Container : Type where
  children : List Element

def Container.replaceChildren (_c : Container) (el : Element) : Container :=
  { children := [el] }

def textConcat : List Element → String
  | [] => ""
  | el :: rest => el.textContent ++ textConcat rest

def containerText (c : Container) : String :=
  textConcat c.children

/-! ### `applyProps` (index.ts lines 127-147)

One prop entry: `undefined` is skipped; strings and numbers are written
as a stringified attribute and a direct property; booleans are written as
a direct property, with the attribute set to the empty string for `true`
and removed for `false`; every other value (null, object, array,
function) is written as a direct property only. -/

def applyProp (element : Element) (key : String) (value : JSValue) : Element :=
  match value with
  | .undef => element
  | .str s => (element.setAttribute key s).setProp key (.str s)
  | .num n => (element.setAttribute key (toString n)).setProp key (.num n)
  | .bool b =>
    let element := element.setProp key (.bool b)
    if b then element.setAttribute key "" else element.removeAttribute key
  | v => element.setProp key v

def applyProps (element : Element) (props : List (String × JSValue)) : Element :=
  props.foldl (fun el p => applyProp el p.1 p.2) element

/-! ### Loader (index.ts lines 56-108)

`remoteRegistry` maps remote ids to registrations; `scriptCache` maps
URLs to the shared in-flight load promise.  Promises are identifiers
allocated from `nextPromise`; `injected` logs every `appendChild` of a
script element into `document.head` (the script-injection side effect),
and `removedScripts` logs every `script.remove()`. -/

structure RemoteRegistration : Type where
  id : String
  url : String
  integrity : Option String
  versionRange : Option String

structure ScriptState : Type where
  promise : Nat

structure LoaderState : Type where
  remoteRegistry : List (String × RemoteRegistration)
  scriptCache : List (String × ScriptState)
  nextPromise : Nat
  injected : List String
  removedScripts : List String

def registerRemote (st : LoaderState) (registration : RemoteRegistration) :
    LoaderState :=
  { st with remoteRegistry := mapSet st.remoteRegistry registration.id registration }

/-- The promise `loadRemote` hands back to its caller: the shared load
promise raced against this caller's own timeout, as built by
`pTimeout(promise, { milliseconds, message })`. -/
structure TimeoutWrapped : Type where
  base : Nat
  milliseconds : Nat
  message : String

/-- An outcome a promise settles with. -/
inductive Outcome : Type where
  | fulfilled : Outcome
  | rejected (msg : String) : Outcome
deriving DecidableEq

/-- Semantics of `pTimeout`: if the base promise settles at time `t`
before the caller's `milliseconds` bound, the wrapped promise settles
with the base outcome; otherwise it rejects with the timeout message.
The underlying base promise (and any loader state) is untouched either
way — p-timeout does not cancel the raced promise. -/
def settleWrapped (w : TimeoutWrapped) (o : Outcome) (t : Nat) : Outcome :=
  if t < w.milliseconds then o else .rejected w.message

/-- Effects performed synchronously by one `loadRemote` call, in order. -/
inductive LoadEffect : Type where
  | createScript (src : String) (integrity : Option String) : LoadEffect
  | appendScript (src : String) : LoadEffect
  | cacheSet (url : String) (pid : Nat) : LoadEffect
  | applyTimeout (pid : Nat) (milliseconds : Nat) : LoadEffect
deriving DecidableEq

def timeoutMessage (id : String) (timeoutMs : Nat) : String :=
  "Timed out loading remote \"" ++ id ++ "\" after " ++ toString timeoutMs ++ "ms"

structure LoadCall : Type where
  state : LoaderState
  trace : List LoadEffect
  result : Except String TimeoutWrapped

/-- `loadRemote(id, timeoutMs)`: the synchronous body of one call.  An
unknown id throws; a cache hit returns the shared promise wrapped in
this caller's timeout; otherwise the script element is created and
appended (the `Promise` executor runs synchronously), the new promise is
stored in the cache, and the timeout race is applied to it. -/
def loadRemote (st : LoaderState) (id : String) (timeoutMs : Nat) : LoadCall :=
  match mapGet st.remoteRegistry id with
  | none => ⟨st, [], .error ("Remote \"" ++ id ++ "\" is not registered")⟩
  | some registration =>
    match mapGet st.scriptCache registration.url with
    | some cached =>
      ⟨st, [.applyTimeout cached.promise timeoutMs],
        .ok ⟨cached.promise, timeoutMs, timeoutMessage id timeoutMs⟩⟩
    | none =>
      ⟨{ st with
          nextPromise := st.nextPromise + 1,
          injected := st.injected ++ [registration.url],
          scriptCache := mapSet st.scriptCache registration.url ⟨st.nextPromise⟩ },
        [.createScript registration.url registration.integrity,
         .appendScript registration.url,
         .cacheSet registration.url st.nextPromise,
         .applyTimeout st.nextPromise timeoutMs],
        .ok ⟨st.nextPromise, timeoutMs, timeoutMessage id timeoutMs⟩⟩

/-- The script's `onload` handler: resolves the shared promise; no
loader state is touched. -/
def scriptOnLoad (st : LoaderState) : LoaderState × Outcome :=
  (st, .fulfilled)

/-- The script's `onerror` handler (closing over the call's `id` and
`registration.url`): evicts the URL's cache entry, removes the script
element, and rejects the shared promise with the load error. -/
def scriptOnError (st : LoaderState) (id url : String) : LoaderState × Outcome :=
  ({ st with
      scriptCache := mapDelete st.scriptCache url,
      removedScripts := st.removedScripts ++ [url] },
   .rejected ("Failed to load remote script for \"" ++ id ++ "\""))

/-- Run a sequence of `loadRemote` calls back to back (each body is
synchronous, so `n` concurrent callers issue their bodies in some serial
order); collects every call's result. -/
def runLoads (st : LoaderState) :
    List (String × Nat) → LoaderState × List (Except String TimeoutWrapped)
  | [] => (st, [])
  | c :: rest =>
    let call := loadRemote st c.1 c.2
    let next := runLoads call.state rest
    (next.1, call.result :: next.2)

/-! ### `renderFallback` (index.ts lines 110-125) -/

inductive Fallback : Type where
  | element (e : Element) : Fallback
  | text (s : String) : Fallback
  | func (f : Unit → Element) : Fallback

def renderFallback (container : Container) (fallback : Fallback) : Container :=
  let element :=
    match fallback with
    | .func f => f ()
    | .text s => { createElement "div" 0 with textContent := s }
    | .element e => e
  container.replaceChildren element

/-! ### Mounter (index.ts lines 149-214)

Zod schemas are modelled as boolean-valued validators: `props` is the
manifest's props schema (its `.parse` throws exactly when the validator
returns false) and `events` maps event names to payload validators
(their `.safeParse` succeeds exactly when the validator returns true).
`hostApi` and `onEvent` are modelled by their presence. -/

structure ManifestRuntime : Type where
  props : Option (List (String × JSValue) → Bool)
  events : List (String × (JSValue → Bool))

structure MountOptions : Type where
  remoteId : String
  tagName : String
  props : List (String × JSValue)
  hostApi : Bool
  onEvent : Bool
  fallback : Option Fallback
  timeoutMs : Nat
  dev : Bool
  manifest : Option ManifestRuntime

structure MountHandle : Type where
  element : Element
  hids : List Nat

def manifestEvents (options : MountOptions) : List (String × (JSValue → Bool)) :=
  match options.manifest with
  | some m => m.events
  | none => []

/-- The dev-mode eager prop validation: `if (manifest?.props && dev)
manifest.props.parse(props)`, which throws on invalid props. -/
def devPropsCheck (options : MountOptions) : Except String Unit :=
  match options.manifest with
  | some m =>
    match m.props with
    | some schema =>
      if options.dev then
        if schema options.props then .ok () else .error "Invalid props"
      else .ok ()
    | none => .ok ()
  | none => .ok ()

/-- The `catch` block of `mount`: if a fallback was supplied render it
into the container, then re-raise the original error. -/
def mountFailure (options : MountOptions) (container : Container) (error : String) :
    Container × Except String MountHandle :=
  match options.fallback with
  | some fb => (renderFallback container fb, .error error)
  | none => (container, .error error)

/-- The listeners `mount` registers, one per entry of the manifest's
event map, in map order; `i` numbers them so the `unmount` closure's
per-listener cleanups can refer to them. -/
def buildListenersFrom (dev : Bool) (i : Nat) :
    List (String × (JSValue → Bool)) → List EListener
  | [] => []
  | (eventName, schema) :: rest =>
    ⟨eventName, dev, schema, i⟩ :: buildListenersFrom dev (i + 1) rest

/-- `mount(options)`.  The load step is parameterised by the outcome the
awaited `loadRemote(remoteId, timeoutMs)` promise settled with, and
`eid` is the identity of the freshly created element. -/
def mount (loadResult : Except String Unit) (options : MountOptions)
    (container : Container) (eid : Nat) :
    Container × Except String MountHandle :=
  match loadResult with
  | .error e => mountFailure options container e
  | .ok _ =>
    let element := createElement options.tagName eid
    match devPropsCheck options with
    | .error e => mountFailure options container e
    | .ok _ =>
      let element := applyProps element options.props
      let element := if options.hostApi then { element with host := true } else element
      let listeners := buildListenersFrom options.dev 0 (manifestEvents options)
      let element := { element with listeners := listeners }
      (container.replaceChildren element,
        .ok { element := element, hids := listeners.map (fun l => l.hid) })

/-! ### Event dispatch (index.ts lines 181-191)

A dispatch's observable output: the `console.warn` messages logged and
the `(eventName, payload)` invocations of the external `onEvent`
callback. -/

structure DispatchResult : Type where
  warnings : List String
  calls : List (String × JSValue)

/-- One mounted listener receiving a payload: in dev mode an invalid
payload is warned about and dropped; otherwise the payload is forwarded
to the external callback when one was supplied. -/
def runHandler (onEvent : Bool) (l : EListener) (payload : JSValue) : DispatchResult :=
  if l.dev && !(l.schema payload) then
    { warnings := ["Invalid payload for event \"" ++ l.eventName ++ "\""], calls := [] }
  else
    { warnings := [], calls := if onEvent then [(l.eventName, payload)] else [] }

/-- DOM dispatch of a `CustomEvent` named `eventName` with `payload` as
its `detail`: the element's listeners registered for that name run in
registration order. -/
def dispatchEvent (onEvent : Bool) (el : Element) (eventName : String)
    (payload : JSValue) : DispatchResult :=
  (el.listeners.filter (fun l => decide (l.eventName = eventName))).foldl
    (fun acc l =>
      let r := runHandler onEvent l payload
      { warnings := acc.warnings ++ r.warnings, calls := acc.calls ++ r.calls })
    ⟨[], []⟩

/-! ### `unmount` (index.ts lines 201-206) -/

/-- The `listeners.forEach(cleanup)` loop: every listener the mount
registered (identified by the handle's `hids`) is removed from the
element. -/
def removeListeners (el : Element) (hids : List Nat) : Element :=
  { el with listeners := el.listeners.filter (fun l => !hids.contains l.hid) }

/-- The world `unmount` acts on: the mounted element, whether it is
still a child of its original container, and how many `removeChild`
calls have been performed on the container. -/
structure MountWorld : Type where
  element : Element
  inContainer : Bool
  removals : Nat

/-- The `unmount` closure: run every listener cleanup, then remove the
element from the container only if it is still that container's child. -/
def unmountW (hids : List Nat) (w : MountWorld) : MountWorld :=
  { element := removeListeners w.element hids,
    inContainer := false,
    removals := w.removals + (if w.inContainer then 1 else 0) }

/-! ### Semantic versions (model of the `semver` library)

`resolveCompatibility` (manifest/src/index.ts lines 82-94) delegates to
`semver.validRange`, `semver.coerce` and `semver.satisfies`.  The
fragment of the library the repository exercises is modelled here:
plain `x.y.z` versions, caret ranges `^x.y.z`, and coercion of dotted
numeric strings (1, 2 or 3 components).  Any input outside this
fragment parses to `none`, matching the library's `null` for invalid
ranges and uncoercible versions. -/

structure SemVer : Type where
  major : Nat
  minor : Nat
  patch : Nat
deriving DecidableEq

def digitsAux : List Char → Nat → Option Nat
  | [], acc => some acc
  | ch :: rest, acc =>
    if ch.isDigit then digitsAux rest (acc * 10 + (ch.toNat - 48)) else none

/-- A nonempty all-digit character run parsed as a number. -/
def digitsToNat : List Char → Option Nat
  | [] => none
  | ch :: rest => digitsAux (ch :: rest) 0

def splitOnDot : List Char → List (List Char)
  | [] => [[]]
  | ch :: rest =>
    match splitOnDot rest with
    | [] => [[]]
    | grp :: more => if ch = '.' then [] :: grp :: more else (ch :: grp) :: more

def parseVersionChars (cs : List Char) : Option SemVer :=
  match splitOnDot cs with
  | [a, b, c] =>
    match digitsToNat a, digitsToNat b, digitsToNat c with
    | some x, some y, some z => some ⟨x, y, z⟩
    | _, _, _ => none
  | _ => none

inductive Range : Type where
  | caret (base : SemVer) : Range
  | exact (base : SemVer) : Range
deriving DecidableEq

/-- `semver.validRange`: a caret range or a plain version, `none` for
anything that is not a valid range. -/
def validRange (s : String) : Option Range :=
  match s.toList with
  | '^' :: rest => (parseVersionChars rest).map Range.caret
  | cs => (parseVersionChars cs).map Range.exact

/-- `semver.coerce(...)?.version`: up to three leading dotted numeric
components, missing ones defaulting to zero; `none` when the input has
no coercible version. -/
def coerce (s : String) : Option SemVer :=
  match splitOnDot s.toList with
  | [a] => (digitsToNat a).map (fun x => ⟨x, 0, 0⟩)
  | [a, b] =>
    match digitsToNat a, digitsToNat b with
    | some x, some y => some ⟨x, y, 0⟩
    | _, _ => none
  | a :: b :: c :: _ =>
    match digitsToNat a, digitsToNat b, digitsToNat c with
    | some x, some y, some z => some ⟨x, y, z⟩
    | _, _, _ => none
  | [] => none

def vLt (a b : SemVer) : Bool :=
  decide (a.major < b.major) ||
    (decide (a.major = b.major) &&
      (decide (a.minor < b.minor) ||
        (decide (a.minor = b.minor) && decide (a.patch < b.patch))))

def vLe (a b : SemVer) : Bool :=
  decide (a = b) || vLt a b

/-- Exclusive upper bound of a caret range: the next breaking version. -/
def caretUpper (base : SemVer) : SemVer :=
  if base.major > 0 then ⟨base.major + 1, 0, 0⟩
  else if base.minor > 0 then ⟨0, base.minor + 1, 0⟩
  else ⟨0, 0, base.patch + 1⟩

/-- `semver.satisfies`. -/
def satisfies (v : SemVer) (r : Range) : Bool :=
  match r with
  | .caret base => vLe base v && vLt v (caretUpper base)
  | .exact base => decide (v = base)

/-- `resolveCompatibility` (manifest/src/index.ts lines 82-94). -/
def resolveCompatibility (hostContractRange componentContractVersion : String) :
    Bool :=
  match validRange hostContractRange, coerce componentContractVersion with
  | some hostRange, some componentVersion => satisfies componentVersion hostRange
  | _, _ => false

/-! ### `generateTypes` (types/src/index.ts lines 275-313)

The CLI entry point is embedded as a filesystem/network effect trace
plus an outcome.  Fetched manifest JSON is a `JSValue`; the shape check
`isManifestJsonPayload` is translated from the source.  The contents
written by `renderTypesFile` / `renderManifestJsonTypesFile` are pure
string renderings that no claim observes, so `writeFile` effects record
the target path only. -/

structure GenerateTypesOptions : Type where
  manifestPath : Option String
  manifestUrl : Option String
  outDir : String
  fileName : Option String

inductive FsEffect : Type where
  | mkdirRecursive (dir : String) : FsEffect
  | fetchUrl (url : String) : FsEffect
  | writeFile (path : String) : FsEffect
deriving DecidableEq

inductive FetchResult : Type where
  | notOk (statusText : String) : FetchResult
  | okJson (json : JSValue) : FetchResult

def isRecord : JSValue → Bool
  | .obj _ => true
  | _ => false

def objHas (v : JSValue) (k : String) : Bool :=
  match v with
  | .obj fields => fields.any (fun p => decide (p.1 = k))
  | _ => false

def objGet (v : JSValue) (k : String) : Option JSValue :=
  match v with
  | .obj fields => mapGet fields k
  | _ => none

def isManifestJsonPayload (v : JSValue) : Bool :=
  isRecord v && objHas v "meta" && objHas v "props" && objHas v "events" &&
    (match objGet v "events" with
     | some events => isRecord events
     | none => false)

def pathJoin (dir file : String) : String :=
  dir ++ "/" ++ file

/-- `generateTypes`, parameterised by the network (`fetch`).  Note the
`mkdir` of the output directory is issued before the mutually-exclusive
argument check. -/
def generateTypes (fetch : String → FetchResult) (opts : GenerateTypesOptions) :
    List FsEffect × Except String Unit :=
  let outputFile :=
    match opts.fileName with
    | some f => f
    | none =>
      match opts.manifestUrl with
      | some _ => "manifest-types.d.ts"
      | none => "manifest-types.ts"
  let effects := [FsEffect.mkdirRecursive opts.outDir]
  match opts.manifestPath, opts.manifestUrl with
  | some _, some _ =>
    (effects, .error "Provide either manifestPath or manifestUrl, not both.")
  | _, _ =>
    match opts.manifestUrl with
    | some url =>
      match fetch url with
      | .notOk statusText =>
        (effects ++ [.fetchUrl url],
          .error ("Failed to fetch manifest from " ++ url ++ ": " ++ statusText))
      | .okJson json =>
        if isManifestJsonPayload json then
          (effects ++ [.fetchUrl url, .writeFile (pathJoin opts.outDir outputFile)],
            .ok ())
        else
          (effects ++ [.fetchUrl url],
            .error "Manifest JSON is missing required sections (meta, props, events).")
    | none =>
      match opts.manifestPath with
      | some _ =>
        (effects ++ [.writeFile (pathJoin opts.outDir outputFile)], .ok ())
      | none =>
        (effects, .error "manifestPath is required when manifestUrl is not provided.")

/-! ## Loader lemmas -/

theorem loadRemote_cached (st : LoaderState) (id : String) (t : Nat)
    (reg : RemoteRegistration) (pid : Nat)
    (hreg : mapGet st.remoteRegistry id = some reg)
    (hhit : mapGet st.scriptCache reg.url = some ⟨pid⟩) :
    loadRemote st id t = ⟨st, [.applyTimeout pid t], .ok ⟨pid, t, timeoutMessage id t⟩⟩ := by
  simp [loadRemote, hreg, hhit]

theorem loadRemote_fresh (st : LoaderState) (id : String) (t : Nat)
    (reg : RemoteRegistration)
    (hreg : mapGet st.remoteRegistry id = some reg)
    (hmiss : mapGet st.scriptCache reg.url = none) :
    loadRemote st id t =
      ⟨{ st with
          nextPromise := st.nextPromise + 1,
          injected := st.injected ++ [reg.url],
          scriptCache := mapSet st.scriptCache reg.url ⟨st.nextPromise⟩ },
        [.createScript reg.url reg.integrity, .appendScript reg.url,
         .cacheSet reg.url st.nextPromise, .applyTimeout st.nextPromise t],
        .ok ⟨st.nextPromise, t, timeoutMessage id t⟩⟩ := by
  simp [loadRemote, hreg, hmiss]

theorem settleWrapped_base (w : TimeoutWrapped) (o : Outcome) (t : Nat)
    (h : t < w.milliseconds) : settleWrapped w o t = o := by
  simp [settleWrapped, h]

theorem settleWrapped_timeout (w : TimeoutWrapped) (o : Outcome) (t : Nat)
    (h : ¬t < w.milliseconds) : settleWrapped w o t = .rejected w.message := by
  simp [settleWrapped, h]

/-- Every call of a batch that finds the URL already cached returns the
cached promise under its own timeout wrapper and leaves the loader state
untouched. -/
theorem runLoads_cached (u : String) (pid : Nat) :
    ∀ (calls : List (String × Nat)) (st : LoaderState),
      (∀ c ∈ calls, ∃ reg, mapGet st.remoteRegistry c.1 = some reg ∧ reg.url = u) →
      mapGet st.scriptCache u = some ⟨pid⟩ →
      (runLoads st calls).1 = st ∧
        ∀ r ∈ (runLoads st calls).2,
          ∃ w, r = .ok w ∧ w.base = pid ∧
            ∀ o t, t < w.milliseconds → settleWrapped w o t = o := by
  intro calls
  induction calls with
  | nil => intro st _ _; exact ⟨rfl, by intro r hr; cases hr⟩
  | cons c rest ih =>
    intro st hreg hhit
    obtain ⟨reg, hr, hurl⟩ := hreg c (List.mem_cons_self c rest)
    have hcall : loadRemote st c.1 c.2 =
        ⟨st, [.applyTimeout pid c.2], .ok ⟨pid, c.2, timeoutMessage c.1 c.2⟩⟩ :=
      loadRemote_cached st c.1 c.2 reg pid hr (hurl ▸ hhit)
    have hrest := ih st (fun d hd => hreg d (List.mem_cons_of_mem c hd)) hhit
    constructor
    · simp only [runLoads, hcall]
      exact hrest.1
    · intro r hrm
      simp only [runLoads, hcall] at hrm
      rcases List.mem_cons.mp hrm with h | h
      · exact ⟨⟨pid, c.2, timeoutMessage c.1 c.2⟩, h, rfl,
          fun o t ht => settleWrapped_base _ o t ht⟩
      · exact hrest.2 r h

/-! ## Claims about the Loader -/

/-- C1: for every `n ≥ 1` concurrent `loadRemote` calls whose
registrations share one URL (issued against a state with no cache entry
for that URL), exactly one script-injection side effect occurs — the
injection log grows by exactly the one URL — and every call receives a
timeout wrapper over the one shared promise, so each call settles with
that single load's outcome whenever it settles within the call's own
timeout. -/
theorem loadRemote_dedup (st : LoaderState) (u : String)
    (calls : List (String × Nat))
    (hne : calls ≠ [])
    (hreg : ∀ c ∈ calls, ∃ reg, mapGet st.remoteRegistry c.1 = some reg ∧ reg.url = u)
    (hmiss : mapGet st.scriptCache u = none) :
    (runLoads st calls).1.injected = st.injected ++ [u] ∧
    ∀ r ∈ (runLoads st calls).2,
      ∃ w, r = .ok w ∧ w.base = st.nextPromise ∧
        ∀ o t, t < w.milliseconds → settleWrapped w o t = o := by
  match calls with
  | [] => exact absurd rfl hne
  | c :: rest =>
    obtain ⟨reg, hr, hurl⟩ := hreg c (List.mem_cons_self c rest)
    have hcall := loadRemote_fresh st c.1 c.2 reg hr (hurl ▸ hmiss)
    set st1 : LoaderState :=
      { st with
          nextPromise := st.nextPromise + 1,
          injected := st.injected ++ [reg.url],
          scriptCache := mapSet st.scriptCache reg.url ⟨st.nextPromise⟩ } with hst1
    have hhit1 : mapGet st1.scriptCache u = some ⟨st.nextPromise⟩ := by
      simp only [hst1]
      exact hurl ▸ mapGet_mapSet_self st.scriptCache reg.url ⟨st.nextPromise⟩
    have hreg1 : ∀ d ∈ rest, ∃ r2, mapGet st1.remoteRegistry d.1 = some r2 ∧ r2.url = u :=
      fun d hd => hreg d (List.mem_cons_of_mem c hd)
    have hrest := runLoads_cached u st.nextPromise rest st1 hreg1 hhit1
    constructor
    · have h1 : (runLoads st (c :: rest)).1 = (runLoads st1 rest).1 := by
        simp only [runLoads, hcall]
      rw [h1, hrest.1, hst1]
      simp [hurl]
    · intro r hrm
      simp only [runLoads, hcall] at hrm
      rcases List.mem_cons.mp hrm with h | h
      · exact ⟨⟨st.nextPromise, c.2, timeoutMessage c.1 c.2⟩, h, rfl,
          fun o t ht => settleWrapped_base _ o t ht⟩
      · exact hrest.2 r h

/-- Witness for C1 at a concrete state: two concurrent calls for
`remote-2` (URL `https://example.com/shared.js`) cause exactly one
injection and both settle with the shared load's outcome. -/
def demoReg : RemoteRegistration :=
  ⟨"remote-2", "https://example.com/shared.js", none, none⟩

def demoSt : LoaderState :=
  registerRemote ⟨[], [], 0, [], []⟩ demoReg

theorem loadRemote_dedup_witness :
    (runLoads demoSt [("remote-2", 50), ("remote-2", 60)]).1.injected =
      demoSt.injected ++ ["https://example.com/shared.js"] ∧
    ∀ r ∈ (runLoads demoSt [("remote-2", 50), ("remote-2", 60)]).2,
      ∃ w, r = .ok w ∧ w.base = demoSt.nextPromise ∧
        ∀ o t, t < w.milliseconds → settleWrapped w o t = o :=
  loadRemote_dedup demoSt "https://example.com/shared.js"
    [("remote-2", 50), ("remote-2", 60)]
    (by simp)
    (by
      intro c hc
      rcases List.mem_cons.mp hc with h | h
      · exact ⟨demoReg, by subst h; rfl, rfl⟩
      · rcases List.mem_cons.mp h with h2 | h2
        · exact ⟨demoReg, by subst h2; rfl, rfl⟩
        · cases h2)
    rfl

/-- C2: after a load fails — the script's `onerror` handler runs,
rejecting the shared promise with the load error — the URL's cache
entry has been removed, so a subsequent `loadRemote` for an id with the
same URL performs a fresh load attempt: a second script injection
appears in the log. -/
theorem loadRemote_failure_evicts (st : LoaderState) (id id2 : String)
    (t t2 : Nat) (reg reg2 : RemoteRegistration)
    (hreg : mapGet st.remoteRegistry id = some reg)
    (hreg2 : mapGet st.remoteRegistry id2 = some reg2)
    (hurl : reg2.url = reg.url)
    (hmiss : mapGet st.scriptCache reg.url = none) :
    (scriptOnError (loadRemote st id t).state id reg.url).2 =
      .rejected ("Failed to load remote script for \"" ++ id ++ "\"") ∧
    mapGet (scriptOnError (loadRemote st id t).state id reg.url).1.scriptCache
      reg.url = none ∧
    (loadRemote (scriptOnError (loadRemote st id t).state id reg.url).1
        id2 t2).state.injected = st.injected ++ [reg.url, reg.url] := by
  have hcall := loadRemote_fresh st id t reg hreg hmiss
  rw [hcall]
  refine ⟨rfl, ?_, ?_⟩
  · exact mapGet_mapDelete_self _ reg.url
  · have hmiss2 :
        mapGet (scriptOnError (loadRemote st id t).state id reg.url).1.scriptCache
          reg2.url = none := by
      rw [hcall, hurl]
      exact mapGet_mapDelete_self _ reg.url
    rw [hcall] at hmiss2
    have hreg2' :
        mapGet (scriptOnError
          ⟨st.remoteRegistry,
            mapSet st.scriptCache reg.url ⟨st.nextPromise⟩,
            st.nextPromise + 1, st.injected ++ [reg.url],
            st.removedScripts⟩ id reg.url).1.remoteRegistry id2 = some reg2 := hreg2
    have hfresh2 := loadRemote_fresh _ id2 t2 reg2 hreg2' hmiss2
    rw [hfresh2, hurl]
    simp [scriptOnError]

theorem loadRemote_failure_evicts_witness :
    (scriptOnError (loadRemote demoSt "remote-2" 50).state "remote-2"
        demoReg.url).2 =
      .rejected ("Failed to load remote script for \"" ++ "remote-2" ++ "\"") ∧
    mapGet (scriptOnError (loadRemote demoSt "remote-2" 50).state "remote-2"
        demoReg.url).1.scriptCache demoReg.url = none ∧
    (loadRemote (scriptOnError (loadRemote demoSt "remote-2" 50).state "remote-2"
        demoReg.url).1 "remote-2" 60).state.injected =
      demoSt.injected ++ [demoReg.url, demoReg.url] :=
  loadRemote_failure_evicts demoSt "remote-2" "remote-2" 50 60 demoReg demoReg
    rfl rfl rfl rfl

/-- C3: every `loadRemote` call — fresh (caller one) or cached (caller
two) — returns the shared promise wrapped in a timeout race whose bound
is the caller's own `timeoutMs` and whose message names the id and the
bound; on the fresh path the cache entry is stored before the timeout
race is applied (the `cacheSet` effect precedes `applyTimeout` in the
call's trace); a cached call leaves the loader state untouched and
races the same underlying promise; and when the underlying load settles
past caller one's bound but within caller two's, caller one rejects
with its timeout error while caller two still observes the load's
outcome — the timeout neither cancels the shared load nor evicts its
cache entry. -/
theorem loadRemote_timeout_race (st : LoaderState) (id id2 : String)
    (t1 t2 : Nat) (reg reg2 : RemoteRegistration)
    (hreg : mapGet st.remoteRegistry id = some reg)
    (hreg2 : mapGet st.remoteRegistry id2 = some reg2)
    (hurl : reg2.url = reg.url)
    (hmiss : mapGet st.scriptCache reg.url = none) :
    ∃ w1, (loadRemote st id t1).result = .ok w1 ∧
      w1.milliseconds = t1 ∧ w1.message = timeoutMessage id t1 ∧
      w1.base = st.nextPromise ∧
      (loadRemote st id t1).trace =
        [.createScript reg.url reg.integrity, .appendScript reg.url,
         .cacheSet reg.url st.nextPromise, .applyTimeout st.nextPromise t1] ∧
      mapGet (loadRemote st id t1).state.scriptCache reg.url =
        some ⟨st.nextPromise⟩ ∧
      ∃ w2, (loadRemote (loadRemote st id t1).state id2 t2).result = .ok w2 ∧
        (loadRemote (loadRemote st id t1).state id2 t2).state =
          (loadRemote st id t1).state ∧
        (loadRemote (loadRemote st id t1).state id2 t2).trace =
          [.applyTimeout st.nextPromise t2] ∧
        w2.base = w1.base ∧ w2.milliseconds = t2 ∧
        w2.message = timeoutMessage id2 t2 ∧
        ∀ o t, ¬t < t1 → t < t2 →
          settleWrapped w1 o t = .rejected (timeoutMessage id t1) ∧
          settleWrapped w2 o t = o := by
  have hcall := loadRemote_fresh st id t1 reg hreg hmiss
  have hhit : mapGet (loadRemote st id t1).state.scriptCache reg2.url =
      some ⟨st.nextPromise⟩ := by
    rw [hcall, hurl]
    exact mapGet_mapSet_self st.scriptCache reg.url ⟨st.nextPromise⟩
  have hreg2' : mapGet (loadRemote st id t1).state.remoteRegistry id2 = some reg2 := by
    rw [hcall]; exact hreg2
  have hcall2 := loadRemote_cached (loadRemote st id t1).state id2 t2 reg2
    st.nextPromise hreg2' hhit
  refine ⟨⟨st.nextPromise, t1, timeoutMessage id t1⟩,
    by rw [hcall], rfl, rfl, rfl, by rw [hcall], ?_,
    ⟨st.nextPromise, t2, timeoutMessage id2 t2⟩,
    by rw [hcall2], by rw [hcall2], by rw [hcall2], rfl, rfl, rfl, ?_⟩
  · rw [hcall]
    exact mapGet_mapSet_self st.scriptCache reg.url ⟨st.nextPromise⟩
  · intro o t h1 h2
    exact ⟨settleWrapped_timeout _ o t h1, settleWrapped_base _ o t h2⟩

theorem loadRemote_timeout_race_witness :
    ∃ w1, (loadRemote demoSt "remote-2" 5).result = .ok w1 ∧
      w1.milliseconds = 5 ∧ w1.message = timeoutMessage "remote-2" 5 ∧
      w1.base = demoSt.nextPromise ∧
      (loadRemote demoSt "remote-2" 5).trace =
        [.createScript demoReg.url demoReg.integrity, .appendScript demoReg.url,
         .cacheSet demoReg.url demoSt.nextPromise,
         .applyTimeout demoSt.nextPromise 5] ∧
      mapGet (loadRemote demoSt "remote-2" 5).state.scriptCache demoReg.url =
        some ⟨demoSt.nextPromise⟩ ∧
      ∃ w2, (loadRemote (loadRemote demoSt "remote-2" 5).state "remote-2" 100).result =
          .ok w2 ∧
        (loadRemote (loadRemote demoSt "remote-2" 5).state "remote-2" 100).state =
          (loadRemote demoSt "remote-2" 5).state ∧
        (loadRemote (loadRemote demoSt "remote-2" 5).state "remote-2" 100).trace =
          [.applyTimeout demoSt.nextPromise 100] ∧
        w2.base = w1.base ∧ w2.milliseconds = 100 ∧
        w2.message = timeoutMessage "remote-2" 100 ∧
        ∀ o t, ¬t < 5 → t < 100 →
          settleWrapped w1 o t = .rejected (timeoutMessage "remote-2" 5) ∧
          settleWrapped w2 o t = o :=
  loadRemote_timeout_race demoSt "remote-2" "remote-2" 5 100 demoReg demoReg
    rfl rfl rfl rfl

/-! ## Claims about the Mounter -/

/-- C4: a `mount` that fails — at the load step or at the dev-mode prop
validation — with a fallback supplied renders the fallback into the
container with replace-children semantics and still rejects with the
original failure; a string fallback leaves the container's text equal to
that string. -/
theorem mount_fallback_on_failure (loadResult : Except String Unit)
    (options : MountOptions) (container : Container) (eid : Nat) :
    (∀ e fb, loadResult = .error e → options.fallback = some fb →
      mount loadResult options container eid =
        (renderFallback container fb, .error e)) ∧
    (∀ fb schema m, loadResult = .ok () → options.manifest = some m →
      m.props = some schema → options.dev = true → schema options.props = false →
      options.fallback = some fb →
      mount loadResult options container eid =
        (renderFallback container fb, .error "Invalid props")) ∧
    (∀ s, containerText (renderFallback container (Fallback.text s)) = s) := by
  refine ⟨?_, ?_, ?_⟩
  · intro e fb h1 h2
    subst h1
    simp [mount, mountFailure, h2]
  · intro fb schema m h1 hm hp hdev hval hfb
    subst h1
    simp [mount, devPropsCheck, hm, hp, hdev, hval, mountFailure, hfb]
  · intro s
    simp [containerText, renderFallback, Container.replaceChildren, textConcat]

def demoFailOptions : MountOptions :=
  { remoteId := "remote-4", tagName := "demo-fallback", props := [],
    hostApi := false, onEvent := false,
    fallback := some (.text "Failed to load"), timeoutMs := 10000,
    dev := false, manifest := none }

theorem mount_fallback_on_failure_witness :
    mount (.error "Failed to load remote script for \"remote-4\"")
        demoFailOptions ⟨[]⟩ 0 =
      (renderFallback ⟨[]⟩ (Fallback.text "Failed to load"),
        .error "Failed to load remote script for \"remote-4\"") ∧
    containerText (renderFallback ⟨[]⟩ (Fallback.text "Failed to load")) =
      "Failed to load" :=
  ⟨(mount_fallback_on_failure _ demoFailOptions ⟨[]⟩ 0).1
      "Failed to load remote script for \"remote-4\""
      (Fallback.text "Failed to load") rfl rfl,
   (mount_fallback_on_failure (.error "x") demoFailOptions ⟨[]⟩ 0).2.2
      "Failed to load"⟩

/-- A successful `mount` hands back the element carrying exactly the
listeners built from the manifest's event map, and an `unmount` cleanup
list covering exactly those listeners. -/
theorem mount_ok_inv (loadResult : Except String Unit) (options : MountOptions)
    (container : Container) (eid : Nat) (h : MountHandle)
    (hmount : (mount loadResult options container eid).2 = .ok h) :
    h.element.listeners = buildListenersFrom options.dev 0 (manifestEvents options) ∧
    h.hids = (buildListenersFrom options.dev 0 (manifestEvents options)).map
      (fun l => l.hid) := by
  cases loadResult with
  | error e =>
    exfalso
    have hbad : (mountFailure options container e).2 = .ok h := hmount
    cases hf : options.fallback <;> simp [mountFailure, hf] at hbad
  | ok u =>
    cases hdc : devPropsCheck options with
    | error e =>
      exfalso
      have hbad : (mount (.ok u) options container eid).2 = .ok h := hmount
      simp only [mount] at hbad
      rw [hdc] at hbad
      cases hf : options.fallback <;> simp [mountFailure, hf] at hbad
    | ok v =>
      have hbad : (mount (.ok u) options container eid).2 = .ok h := hmount
      simp only [mount] at hbad
      rw [hdc] at hbad
      simp only [Except.ok.injEq] at hbad
      subst hbad
      constructor <;> rfl

theorem filter_buildListenersFrom_notMem (dev : Bool) (name : String) :
    ∀ (events : List (String × (JSValue → Bool))) (i : Nat),
      name ∉ events.map Prod.fst →
      (buildListenersFrom dev i events).filter
        (fun l => decide (l.eventName = name)) = [] := by
  intro events
  induction events with
  | nil => intro i _; rfl
  | cons p rest ih =>
    intro i hnm
    obtain ⟨n, s⟩ := p
    rw [List.map_cons, List.mem_cons, not_or] at hnm
    have hne : ¬(n = name) := fun hh => hnm.1 hh.symm
    simp [buildListenersFrom, List.filter_cons, hne, ih (i + 1) hnm.2]

theorem filter_buildListenersFrom_mem (dev : Bool) (name : String)
    (schema : JSValue → Bool) :
    ∀ (events : List (String × (JSValue → Bool))) (i : Nat),
      (name, schema) ∈ events →
      (events.map Prod.fst).Nodup →
      ∃ j, (buildListenersFrom dev i events).filter
        (fun l => decide (l.eventName = name)) = [⟨name, dev, schema, j⟩] := by
  intro events
  induction events with
  | nil => intro i hmem _; cases hmem
  | cons p rest ih =>
    intro i hmem hnd
    obtain ⟨n, s⟩ := p
    rw [List.map_cons, List.nodup_cons] at hnd
    rcases List.mem_cons.mp hmem with heq | hmem'
    · cases heq
      refine ⟨i, ?_⟩
      simp [buildListenersFrom, List.filter_cons,
        filter_buildListenersFrom_notMem dev name rest (i + 1) hnd.1]
    · have hinmap : name ∈ rest.map Prod.fst :=
        List.mem_map.mpr ⟨(name, schema), hmem', rfl⟩
      have hne : ¬(n = name) := fun hh => hnd.1 (hh ▸ hinmap)
      obtain ⟨j, hj⟩ := ih (i + 1) hmem' hnd.2
      exact ⟨j, by simp [buildListenersFrom, List.filter_cons, hne, hj]⟩

/-- C6: for an event name in the manifest's event map of a mounted
element, a dispatched payload failing that event's schema in dev mode
produces exactly the warning and no `onEvent` invocation; a payload
satisfying the schema — or any payload outside dev mode — produces no
warning and exactly one `onEvent` invocation with `(eventName,
payload)`. -/
theorem mount_event_validation (loadResult : Except String Unit)
    (options : MountOptions) (container : Container) (eid : Nat)
    (m : ManifestRuntime) (h : MountHandle) (name : String)
    (schema : JSValue → Bool)
    (hm : options.manifest = some m)
    (hmem : (name, schema) ∈ m.events)
    (hnd : (m.events.map Prod.fst).Nodup)
    (hoe : options.onEvent = true)
    (hmount : (mount loadResult options container eid).2 = .ok h) :
    ∀ payload,
      (options.dev = true → schema payload = false →
        dispatchEvent options.onEvent h.element name payload =
          ⟨["Invalid payload for event \"" ++ name ++ "\""], []⟩) ∧
      (schema payload = true ∨ options.dev = false →
        dispatchEvent options.onEvent h.element name payload =
          ⟨[], [(name, payload)]⟩) := by
  intro payload
  have hlist := (mount_ok_inv loadResult options container eid h hmount).1
  have hev : manifestEvents options = m.events := by simp [manifestEvents, hm]
  rw [hev] at hlist
  obtain ⟨j, hj⟩ := filter_buildListenersFrom_mem options.dev name schema
    m.events 0 hmem hnd
  have hfil : h.element.listeners.filter (fun l => decide (l.eventName = name)) =
      [⟨name, options.dev, schema, j⟩] := by rw [hlist]; exact hj
  constructor
  · intro hdev hs
    simp [dispatchEvent, hfil, runHandler, hdev, hs]
  · intro hcase
    rcases hcase with hs | hdev
    · simp [dispatchEvent, hfil, runHandler, hs, hoe]
    · simp [dispatchEvent, hfil, runHandler, hdev, hoe]

def demoSchema : JSValue → Bool := fun v =>
  match v with
  | .obj [("id", .str _)] => true
  | _ => false

def demoManifest : ManifestRuntime :=
  { props := none, events := [("user:selected", demoSchema)] }

def demoEventOptions : MountOptions :=
  { remoteId := "remote-3", tagName := "demo-element", props := [],
    hostApi := false, onEvent := true, fallback := none, timeoutMs := 10000,
    dev := true, manifest := some demoManifest }

def demoHandle : MountHandle :=
  { element := { createElement "demo-element" 0 with
      listeners := buildListenersFrom true 0 demoManifest.events },
    hids := (buildListenersFrom true 0 demoManifest.events).map (fun l => l.hid) }

theorem mount_event_validation_witness :
    dispatchEvent demoEventOptions.onEvent demoHandle.element "user:selected"
        (.obj [("id", .num 42)]) =
      ⟨["Invalid payload for event \"user:selected\""], []⟩ ∧
    dispatchEvent demoEventOptions.onEvent demoHandle.element "user:selected"
        (.obj [("id", .str "ok")]) =
      ⟨[], [("user:selected", .obj [("id", .str "ok")])]⟩ :=
  ⟨((mount_event_validation (.ok ()) demoEventOptions ⟨[]⟩ 0 demoManifest
      demoHandle "user:selected" demoSchema rfl (List.mem_cons_self _ _)
      (by decide) rfl rfl) (.obj [("id", .num 42)])).1 rfl rfl,
   ((mount_event_validation (.ok ()) demoEventOptions ⟨[]⟩ 0 demoManifest
      demoHandle "user:selected" demoSchema rfl (List.mem_cons_self _ _)
      (by decide) rfl rfl) (.obj [("id", .str "ok")])).2 (Or.inl rfl)⟩

theorem filter_self_idem {α : Type} (p : α → Bool) (l : List α) :
    (l.filter p).filter p = l.filter p := by
  induction l with
  | nil => rfl
  | cons a rest ih =>
    by_cases hh : p a <;> simp [List.filter_cons, hh, ih]

theorem removeListeners_all (el : Element) :
    (removeListeners el (el.listeners.map (fun l => l.hid))).listeners = [] := by
  simp only [removeListeners]
  rw [List.filter_eq_nil_iff]
  intro l hl
  simp [List.mem_map.mpr ⟨l, hl, rfl⟩]

/-- C7: after a successful mount, `unmount` detaches every listener the
mount registered — subsequent dispatches produce no warnings and no
callback invocations — removes the element from the container exactly
when it is still that container's child (no removal is attempted after
the caller has manually detached it), and is idempotent. -/
theorem mount_unmount_spec (loadResult : Except String Unit)
    (options : MountOptions) (container : Container) (eid : Nat)
    (h : MountHandle)
    (hmount : (mount loadResult options container eid).2 = .ok h) :
    (removeListeners h.element h.hids).listeners = [] ∧
    (∀ onE name payload,
      dispatchEvent onE (removeListeners h.element h.hids) name payload =
        ⟨[], []⟩) ∧
    (∀ w : MountWorld, unmountW h.hids (unmountW h.hids w) = unmountW h.hids w) ∧
    (∀ w : MountWorld, w.inContainer = true →
      (unmountW h.hids w).removals = w.removals + 1 ∧
      (unmountW h.hids w).inContainer = false) ∧
    (∀ w : MountWorld, w.inContainer = false →
      (unmountW h.hids w).removals = w.removals) := by
  obtain ⟨hlist, hhids⟩ := mount_ok_inv loadResult options container eid h hmount
  have hall : (removeListeners h.element h.hids).listeners = [] := by
    rw [hhids, ← hlist]
    exact removeListeners_all h.element
  refine ⟨hall, ?_, ?_, ?_, ?_⟩
  · intro onE name payload
    simp [dispatchEvent, hall]
  · intro w
    simp [unmountW, removeListeners, filter_self_idem]
  · intro w hw
    simp [unmountW, hw]
  · intro w hw
    simp [unmountW, hw]

theorem mount_unmount_spec_witness :
    (removeListeners demoHandle.element demoHandle.hids).listeners = [] ∧
    (∀ onE name payload,
      dispatchEvent onE (removeListeners demoHandle.element demoHandle.hids)
        name payload = ⟨[], []⟩) ∧
    (∀ w : MountWorld,
      unmountW demoHandle.hids (unmountW demoHandle.hids w) =
        unmountW demoHandle.hids w) ∧
    (∀ w : MountWorld, w.inContainer = true →
      (unmountW demoHandle.hids w).removals = w.removals + 1 ∧
      (unmountW demoHandle.hids w).inContainer = false) ∧
    (∀ w : MountWorld, w.inContainer = false →
      (unmountW demoHandle.hids w).removals = w.removals) :=
  mount_unmount_spec (.ok ()) demoEventOptions ⟨[]⟩ 0 demoHandle rfl

/-! ## Claims about prop application -/

def demoProps : List (String × JSValue) :=
  [("userId", .str "123"), ("count", .num 2), ("active", .bool true),
   ("hidden", .bool false), ("complex", .obj [("nested", .bool true)])]

def demoMountOptions : MountOptions :=
  { remoteId := "remote-3", tagName := "demo-element", props := demoProps,
    hostApi := false, onEvent := false, fallback := none, timeoutMs := 10000,
    dev := false, manifest := none }

/-- C5: mounting with props `{userId: "123", count: 2, active: true,
hidden: false, complex: {nested: true}}` yields the element produced by
`applyProps`, which ends with attribute `userId="123"`, attribute
`count="2"`, attribute `active=""` present, attribute `hidden` absent,
and direct property `complex` equal to `{nested: true}`; in general a
string or number prop is written as stringified attribute plus property,
`true` as property plus empty attribute, `false` as property with the
attribute removed, and `undefined` props are skipped entirely. -/
theorem applyProps_prop_application :
    ((mount (.ok ()) demoMountOptions ⟨[]⟩ 0).2 =
      .ok ⟨applyProps (createElement "demo-element" 0) demoProps, []⟩) ∧
    ((applyProps (createElement "demo-element" 0) demoProps).getAttribute
        "userId" = some "123" ∧
      (applyProps (createElement "demo-element" 0) demoProps).getAttribute
        "count" = some "2" ∧
      (applyProps (createElement "demo-element" 0) demoProps).getAttribute
        "active" = some "" ∧
      (applyProps (createElement "demo-element" 0) demoProps).getAttribute
        "hidden" = none ∧
      mapGet (applyProps (createElement "demo-element" 0) demoProps).props
        "complex" = some (.obj [("nested", .bool true)])) ∧
    (∀ (el : Element) (k s : String),
      (applyProp el k (.str s)).getAttribute k = some s ∧
      mapGet (applyProp el k (.str s)).props k = some (.str s)) ∧
    (∀ (el : Element) (k : String) (n : Int),
      (applyProp el k (.num n)).getAttribute k = some (toString n) ∧
      mapGet (applyProp el k (.num n)).props k = some (.num n)) ∧
    (∀ (el : Element) (k : String),
      (applyProp el k (.bool true)).getAttribute k = some "" ∧
      mapGet (applyProp el k (.bool true)).props k = some (.bool true)) ∧
    (∀ (el : Element) (k : String),
      (applyProp el k (.bool false)).getAttribute k = none ∧
      mapGet (applyProp el k (.bool false)).props k = some (.bool false)) ∧
    (∀ (el : Element) (k : String), applyProp el k .undef = el) := by
  refine ⟨rfl, ⟨rfl, rfl, rfl, rfl, rfl⟩, ?_, ?_, ?_, ?_, fun el k => rfl⟩
  · intro el k s
    exact ⟨mapGet_mapSet_self el.attrs k s,
      mapGet_mapSet_self (el.setAttribute k s).props k (.str s)⟩
  · intro el k n
    exact ⟨mapGet_mapSet_self el.attrs k (toString n),
      mapGet_mapSet_self (el.setAttribute k (toString n)).props k (.num n)⟩
  · intro el k
    exact ⟨mapGet_mapSet_self (el.setProp k (.bool true)).attrs k "",
      mapGet_mapSet_self el.props k (.bool true)⟩
  · intro el k
    exact ⟨mapGet_mapDelete_self (el.setProp k (.bool false)).attrs k,
      mapGet_mapSet_self el.props k (.bool false)⟩

/-- C10: in prop application only `undefined` values are skipped; a
`null` (or object, array, function) value is written to the element as
a direct property, with the attribute map untouched — no attribute is
set or removed for that key. -/
theorem applyProp_skip_only_undefined :
    (∀ (el : Element) (k : String), applyProp el k .undef = el) ∧
    (∀ (el : Element) (k : String), applyProp el k .null = el.setProp k .null) ∧
    (∀ (el : Element) (k : String) (fs : List (String × JSValue)),
      applyProp el k (.obj fs) = el.setProp k (.obj fs)) ∧
    (∀ (el : Element) (k : String) (xs : List JSValue),
      applyProp el k (.arr xs) = el.setProp k (.arr xs)) ∧
    (∀ (el : Element) (k : String) (fid : Nat),
      applyProp el k (.func fid) = el.setProp k (.func fid)) ∧
    (∀ (el : Element) (k : String) (v : JSValue),
      (el.setProp k v).attrs = el.attrs ∧
      mapGet (el.setProp k v).props k = some v) :=
  ⟨fun _ _ => rfl, fun _ _ => rfl, fun _ _ _ => rfl, fun _ _ _ => rfl,
    fun _ _ _ => rfl,
    fun el k v => ⟨rfl, mapGet_mapSet_self el.props k v⟩⟩

/-! ## Claim about `resolveCompatibility` -/

/-- C8: `resolveCompatibility` is a total boolean function returning
`false` whenever the host range is not a valid range or the component
version is not coercible, and on the spec's examples:
`^1.0.0`/`1.2.3 ↦ true`, `^2.0.0`/`1.2.3 ↦ false`,
`not-a-range`/`1.2.3 ↦ false`. -/
theorem resolveCompatibility_spec :
    (∀ hr cv, validRange hr = none ∨ coerce cv = none →
      resolveCompatibility hr cv = false) ∧
    resolveCompatibility "^1.0.0" "1.2.3" = true ∧
    resolveCompatibility "^2.0.0" "1.2.3" = false ∧
    resolveCompatibility "not-a-range" "1.2.3" = false := by
  refine ⟨?_, by decide, by decide, by decide⟩
  intro hr cv hor
  cases hvr : validRange hr with
  | none => simp [resolveCompatibility, hvr]
  | some r =>
    cases hco : coerce cv with
    | none => simp [resolveCompatibility, hvr, hco]
    | some v =>
      rcases hor with hh | hh
      · rw [hvr] at hh; cases hh
      · rw [hco] at hh; cases hh

theorem resolveCompatibility_spec_witness :
    resolveCompatibility "not-a-range" "1.2.3" = false :=
  resolveCompatibility_spec.1 "not-a-range" "1.2.3" (Or.inl (by decide))

/-! ## Claim about `generateTypes` -/

/-- C9: calling `generateTypes` with both `manifestPath` and
`manifestUrl` rejects with the mutually-exclusive-arguments error, but
its effect trace already contains the recursive `mkdir` of `outDir`:
the directory-creation side effect precedes the argument-conflict
check. -/
theorem generateTypes_mkdir_before_conflict (fetch : String → FetchResult)
    (p u outDir : String) (fileName : Option String) :
    generateTypes fetch ⟨some p, some u, outDir, fileName⟩ =
      ([FsEffect.mkdirRecursive outDir],
        .error "Provide either manifestPath or manifestUrl, not both.") := by
  cases fileName <;> rfl

end Accord
